import Mathlib

/-!
Shallow embedding of the Retail-IA-Predictor core (feature pipeline, churn
predictor, sales forecaster, serving-layer risk filter) and proofs of the
specification claims about it.

Numbers are modelled as rationals (pandas float columns), dates as integer day
numbers, tables as lists of rows.  External fitted models (XGBoost, Prophet)
are opaque optimizers: they enter the model as parameters (arbitrary functions
from features to predictions), while everything the repository's own code
computes around them is embedded faithfully.
-/

namespace RetailIA

/-! ## Customer feature creation (`ChurnPredictor._create_features`) -/

/-- One row of the processed `customer_features` table as consumed by
`ChurnPredictor._create_features`: the RFM columns. -/
structure CustRow where
  customer_id : ℤ
  recency : ℚ
  frequency : ℚ
  monetary : ℚ
deriving Repr, DecidableEq

/-- One row of the model feature matrix `X`
(columns `frequency`, `monetary`, `avg_ticket`). -/
structure FeatRow where
  frequency : ℚ
  monetary : ℚ
  avg_ticket : ℚ
deriving Repr, DecidableEq

/-- `avg_ticket` as computed in `ChurnPredictor._create_features`:
`np.where(df['frequency'] > 0, df['monetary'] / df['frequency'], 0)`. -/
def avgTicketTrain (monetary frequency : ℚ) : ℚ :=
  if frequency > 0 then monetary / frequency else 0

/-- Churn target from `_create_features`: `(df['recency'] > 90).astype(int)`. -/
def isChurnLabel (recency : ℚ) : ℕ :=
  if recency > 90 then 1 else 0

/-- `ChurnPredictor._create_features(df)`: computes `avg_ticket`, the
`is_churn` target, and returns `(X, y, feature_cols)` with
`feature_cols = ['frequency', 'monetary', 'avg_ticket']`
(`recency` deliberately excluded). -/
def createFeatures (df : List CustRow) : List FeatRow × List ℕ × List String :=
  (df.map (fun r => ⟨r.frequency, r.monetary, avgTicketTrain r.monetary r.frequency⟩),
   df.map (fun r => isChurnLabel r.recency),
   ["frequency", "monetary", "avg_ticket"])

/-- `avg_ticket` as recomputed in the serving page (`2_🔄_Churn.py`):
`frequency_safe = data['frequency'].replace(0, pd.NA)` followed by
`(data['monetary'] / frequency_safe).fillna(0)`.  Division by `pd.NA`
propagates `NA`, which `fillna(0)` then replaces by `0`. -/
def avgTicketServing (monetary frequency : ℚ) : ℚ :=
  let frequency_safe : Option ℚ := if frequency = 0 then none else some frequency
  match frequency_safe with
  | none => 0
  | some f => monetary / f

/-! ## Serving-layer risk filter (`2_🔄_Churn.py`, `risk_df`) -/

/-- One row of the serving page's `data` table after the
`Churn_Probability` column has been appended. -/
structure ScoredRow where
  customer_id : ℤ
  recency : ℚ
  frequency : ℚ
  monetary : ℚ
  avg_ticket : ℚ
  churn_probability : ℚ
deriving Repr, DecidableEq

/-- Descending-probability order used by
`risk_df.sort_values(by='Churn_Probability', ascending=False)`. -/
def probGE (a b : ScoredRow) : Prop :=
  b.churn_probability ≤ a.churn_probability

instance : DecidableRel probGE :=
  fun a b => inferInstanceAs (Decidable (b.churn_probability ≤ a.churn_probability))

instance : IsTotal ScoredRow probGE :=
  ⟨fun a b => (le_total b.churn_probability a.churn_probability).imp id id⟩

instance : IsTrans ScoredRow probGE :=
  ⟨fun _ _ _ hab hbc => le_trans hbc hab⟩

/-- `risk_df = data[data['Churn_Probability'] > threshold]` followed by
`sort_values(by='Churn_Probability', ascending=False)`. -/
def riskFilter (data : List ScoredRow) (threshold : ℚ) : List ScoredRow :=
  List.insertionSort probGE
    (data.filter (fun r => decide (threshold < r.churn_probability)))

/-! ## Sales forecaster (`SalesTimeSeriesPredictor`) -/

/-- One row of the `sales_processed` CSV as read by
`SalesTimeSeriesPredictor.train`: date (`none` for a null/NaT entry),
`total_amount` and `quantity` (`none` for null cells). -/
structure SalesCsvRow where
  date : Option ℤ
  total_amount : Option ℚ
  quantity : Option ℚ
deriving Repr, DecidableEq

/-- Sorted insertion of a date into a strictly-ascending list of distinct
dates (the sorted distinct group keys produced by `groupby('date')`). -/
def insertDate (d : ℤ) : List ℤ → List ℤ
  | [] => [d]
  | x :: xs =>
    if d < x then d :: x :: xs
    else if d = x then x :: xs
    else x :: insertDate d xs

/-- Ascending list of the distinct elements of `l`. -/
def distinctDates (l : List ℤ) : List ℤ := l.foldr insertDate []

/-- Pandas `sum` with default `skipna=True` over the `total_amount` cells of
the transactions dated `d` (an all-null group sums to `0`). -/
def sumAmounts (rows : List SalesCsvRow) (d : ℤ) : ℚ :=
  ((rows.filter (fun r => decide (r.date = some d))).filterMap
    (fun r => r.total_amount)).sum

/-- `df.groupby('date').agg({'total_amount': 'sum', ...})` restricted to the
`(ds, y)` pair that `train` keeps: one row per distinct non-null date
(pandas `groupby` drops null keys), dates ascending, amounts summed. -/
def groupDaily (rows : List SalesCsvRow) : List (Option ℤ × Option ℚ) :=
  (distinctDates (rows.filterMap (fun r => r.date))).map
    (fun d => (some d, some (sumAmounts rows d)))

/-- `self.df_train.dropna()`: keep only the rows with both cells non-null. -/
def dropnaSeries (s : List (Option ℤ × Option ℚ)) : List (ℤ × ℚ) :=
  s.filterMap (fun p =>
    match p with
    | (some d, some y) => some (d, y)
    | _ => none)

/-- Abstract fitted Prophet model: the history dates it was fit on (Prophet
records them and `make_future_dataframe` extends them) plus opaque per-date
forecast functions (`yhat`, `yhat_lower`, `yhat_upper`). -/
structure ProphetModel where
  historyDates : List ℤ
  yhat : ℤ → ℚ
  yhatLower : ℤ → ℚ
  yhatUpper : ℤ → ℚ

/-- Prophet's fitting procedure is an external optimizer: it enters the model
as an arbitrary family of forecast functions. -/
structure ProphetFit where
  yhat : ℤ → ℚ
  yhatLower : ℤ → ℚ
  yhatUpper : ℤ → ℚ

/-- One row of the forecast output `[['ds', 'yhat', 'yhat_lower', 'yhat_upper']]`. -/
structure ForecastRow where
  ds : ℤ
  yhat : ℚ
  yhat_lower : ℚ
  yhat_upper : ℚ
deriving Repr, DecidableEq

/-- Error taxonomy for the forecaster: `DataError` is the `ValueError` raised
by `train`, `StateError` the `RuntimeError` raised before training. -/
inductive SalesErr where
  | dataError : String → SalesErr
  | stateError : String → SalesErr
deriving Repr, DecidableEq

/-- Mutable state of a `SalesTimeSeriesPredictor` instance. -/
structure SalesState where
  data_path : String
  model_path : String
  model : Option ProphetModel
  df_train : Option (List (ℤ × ℚ))

/-- `SalesTimeSeriesPredictor.__init__`. -/
def initSales (dp mp : String) : SalesState :=
  ⟨dp, mp, none, none⟩

/-- Maximum of a list of dates (`history['ds'].max()`); the callers below only
use it on non-empty lists. -/
def maxDateList (l : List ℤ) : ℤ :=
  l.foldl max (l.headD 0)

/-- `SalesTimeSeriesPredictor.train` on the already-loaded CSV rows: groups by
day, renames to `(ds, y)`, drops nulls, raises `ValueError` when fewer than 30
rows remain, otherwise fits Prophet (which records the history dates) and
persists the model.  Returns the mutated state together with the outcome;
note that `self.df_train` is assigned before the length check, so it is set
even on the failing path, while `self.model` is only assigned after it. -/
def trainForecast (fit : ProphetFit) (st : SalesState) (rows : List SalesCsvRow) :
    SalesState × Except SalesErr Unit :=
  let df_train := dropnaSeries (groupDaily rows)
  let st1 : SalesState := { st with df_train := some df_train }
  if df_train.length < 30 then
    (st1, .error (.dataError "No hay suficientes datos para entrenar (min. 30 dias)"))
  else
    ({ st1 with
        model := some ⟨df_train.map Prod.fst, fit.yhat, fit.yhatLower, fit.yhatUpper⟩ },
     .ok ())

/-- Consecutive future dates `last + 1, ..., last + periods`. -/
def futureDates (last : ℤ) (periods : ℕ) : List ℤ :=
  (List.range periods).map (fun (i : ℕ) => last + 1 + (i : ℤ))

/-- `Prophet.make_future_dataframe(periods)` with the default
`include_history=True`: the history dates followed by `periods` consecutive
days strictly after the last history date. -/
def makeFutureDataframe (m : ProphetModel) (periods : ℕ) : List ℤ :=
  m.historyDates ++ futureDates (maxDateList m.historyDates) periods

/-- `self.model.predict(future)` restricted to the four output columns kept by
the caller. -/
def prophetPredict (m : ProphetModel) (future : List ℤ) : List ForecastRow :=
  future.map (fun d => ⟨d, m.yhat d, m.yhatLower d, m.yhatUpper d⟩)

/-- Last training date `self.df_train['ds'].max()`. -/
def maxDsTrain (tr : List (ℤ × ℚ)) : ℤ :=
  maxDateList (tr.map Prod.fst)

/-- `SalesTimeSeriesPredictor.predict_next_days(days)`. -/
def predictNextDays (st : SalesState) (days : ℕ) :
    Except SalesErr (List ForecastRow) :=
  match st.model with
  | none => .error (.stateError "El modelo no ha sido entrenado")
  | some m =>
    let forecast := prophetPredict m (makeFutureDataframe m days)
    match st.df_train with
    | some tr => .ok (forecast.filter (fun r => decide (maxDsTrain tr < r.ds)))
    | none => .ok (forecast.drop (forecast.length - days))

/-! ## Churn predictor lifecycle (`ChurnPredictor`) -/

/-- Abstract fitted XGBoost classifier: opaque prediction functions produced
by `XGBClassifier.fit`.  `predictLabels` is `model.predict`, `predictProba`
is `model.predict_proba(...)[:, 1]` (positive-class column). -/
structure XGBModel where
  predictLabels : List FeatRow → List ℕ
  predictProba : List FeatRow → List ℚ

/-- XGBoost training is an external optimizer: it enters the model as an
arbitrary function from the training split to a fitted classifier. -/
def XGBFit : Type :=
  List FeatRow → List ℕ → XGBModel

/-- `train_test_split(X, y, test_size, random_state, stratify=y)` is delegated
to scikit-learn; it enters the model as an arbitrary splitting function
returning `(X_train, X_test, y_train, y_test)`. -/
def Splitter : Type :=
  List FeatRow → List ℕ → List FeatRow × List FeatRow × List ℕ × List ℕ

/-- Number of positions where the two label sequences agree. -/
def countAgree (ytrue ypred : List ℕ) : ℕ :=
  (ytrue.zip ypred).countP (fun p => decide (p.1 = p.2))

/-- `accuracy_score`. -/
def accuracyScore (ytrue ypred : List ℕ) : ℚ :=
  if ytrue.length = 0 then 0 else (countAgree ytrue ypred : ℚ) / ytrue.length

/-- Confusion-matrix cell: number of positions with true label `t` and
predicted label `p`. -/
def cmCount (ytrue ypred : List ℕ) (t p : ℕ) : ℕ :=
  (ytrue.zip ypred).countP (fun q => decide (q.1 = t ∧ q.2 = p))

/-- `precision_score(..., zero_division=0)`. -/
def precisionScore (ytrue ypred : List ℕ) : ℚ :=
  let tp := cmCount ytrue ypred 1 1
  let fp := cmCount ytrue ypred 0 1
  if tp + fp = 0 then 0 else (tp : ℚ) / (tp + fp)

/-- `recall_score(..., zero_division=0)`. -/
def recallScore (ytrue ypred : List ℕ) : ℚ :=
  let tp := cmCount ytrue ypred 1 1
  let fn := cmCount ytrue ypred 1 0
  if tp + fn = 0 then 0 else (tp : ℚ) / (tp + fn)

/-- `f1_score(..., zero_division=0)` as the harmonic mean of precision and
recall. -/
def f1Score (ytrue ypred : List ℕ) : ℚ :=
  let p := precisionScore ytrue ypred
  let r := recallScore ytrue ypred
  if p + r = 0 then 0 else 2 * p * r / (p + r)

/-- `roc_auc_score` in its Mann-Whitney formulation: the probability that a
random positive is scored above a random negative, ties counting one half
(degenerate single-class input mapped to `0`; no claim depends on it). -/
def aucScore (ytrue : List ℕ) (scores : List ℚ) : ℚ :=
  let pairs := ytrue.zip scores
  let pos := (pairs.filter (fun q => decide (q.1 = 1))).map Prod.snd
  let neg := (pairs.filter (fun q => decide (q.1 ≠ 1))).map Prod.snd
  if pos.length = 0 ∨ neg.length = 0 then 0
  else
    ((pos.map (fun p =>
        (neg.map (fun n => if n < p then (1 : ℚ) else if n = p then 1/2 else 0)).sum)).sum)
      / ((pos.length : ℚ) * neg.length)

/-- Metrics dictionary retained by `_calculate_metrics` (the nested
`confusion_matrix` dict is flattened into its four cells). -/
structure ChurnMetrics where
  train_accuracy : ℚ
  test_accuracy : ℚ
  test_precision : ℚ
  test_recall : ℚ
  test_f1 : ℚ
  test_auc : ℚ
  cm_tn : ℕ
  cm_fp : ℕ
  cm_fn : ℕ
  cm_tp : ℕ

/-- `ChurnPredictor._calculate_metrics`. -/
def calculateMetrics (m : XGBModel) (X_train : List FeatRow) (y_train : List ℕ)
    (X_test : List FeatRow) (y_test : List ℕ) : ChurnMetrics :=
  let y_train_pred := m.predictLabels X_train
  let y_test_pred := m.predictLabels X_test
  let y_test_proba := m.predictProba X_test
  ⟨accuracyScore y_train y_train_pred,
   accuracyScore y_test y_test_pred,
   precisionScore y_test y_test_pred,
   recallScore y_test y_test_pred,
   f1Score y_test y_test_pred,
   aucScore y_test y_test_proba,
   cmCount y_test y_test_pred 0 0,
   cmCount y_test y_test_pred 0 1,
   cmCount y_test y_test_pred 1 0,
   cmCount y_test y_test_pred 1 1⟩

/-- Mutable state of a `ChurnPredictor` instance; the empty `metrics` dict of
`__init__` is modelled as `none`. -/
structure ChurnState where
  data_path : String
  model_path : String
  random_state : ℕ
  model : Option XGBModel
  feature_names : Option (List String)
  metrics : Option ChurnMetrics
  X_test : Option (List FeatRow)
  y_test : Option (List ℕ)

/-- `ChurnPredictor.__init__`. -/
def initChurn (dp mp : String) (rs : ℕ) : ChurnState :=
  ⟨dp, mp, rs, none, none, none, none, none⟩

/-- Pickle file store for model artifacts: path-indexed model values
(`pickle.dump`/`pickle.load` round-trip a value exactly). -/
def Store : Type :=
  List (String × XGBModel)

/-- Read the artifact at `k`, if present. -/
def storeGet (s : Store) (k : String) : Option XGBModel :=
  (s.find? (fun p => decide (p.1 = k))).map Prod.snd

/-- `pickle.dump(model, open(k, 'wb'))`: the latest write at a path wins. -/
def storeSet (s : Store) (k : String) (v : XGBModel) : Store :=
  (k, v) :: s

/-- Error taxonomy for the churn predictor: `StateError` is the
`RuntimeError` raised when the model is unset, `NotFoundError` the
`FileNotFoundError` of `load_model`. -/
inductive ChurnErr where
  | stateError : String → ChurnErr
  | notFoundError : String → ChurnErr

/-- `ChurnPredictor.train(test_size)` on the already-loaded CSV rows: creates
features and target, splits, fits, computes metrics, persists the fitted
model at `model_path`.  Returns the mutated state and the updated artifact
store. -/
def trainChurn (split : Splitter) (fit : XGBFit) (st : ChurnState) (store : Store)
    (df : List CustRow) : ChurnState × Store :=
  let fc := createFeatures df
  let X := fc.1
  let y := fc.2.1
  let feature_names := fc.2.2
  let sp := split X y
  let X_train := sp.1
  let X_test := sp.2.1
  let y_train := sp.2.2.1
  let y_test := sp.2.2.2
  let m := fit X_train y_train
  ({ st with
      model := some m,
      feature_names := some feature_names,
      metrics := some (calculateMetrics m X_train y_train X_test y_test),
      X_test := some X_test,
      y_test := some y_test },
   storeSet store st.model_path m)

/-- `ChurnPredictor.predict(X)`. -/
def predictChurn (st : ChurnState) (X : List FeatRow) : Except ChurnErr (List ℕ) :=
  match st.model with
  | none => .error (.stateError "El modelo no ha sido entrenado.")
  | some m => .ok (m.predictLabels X)

/-- `ChurnPredictor.predict_churn_probability(X)`. -/
def predictChurnProbability (st : ChurnState) (X : List FeatRow) :
    Except ChurnErr (List ℚ) :=
  match st.model with
  | none => .error (.stateError "El modelo no ha sido entrenado.")
  | some m => .ok (m.predictProba X)

/-- Fixed default feature-name list restored by `load_model` when
`self.feature_names` is unset. -/
def defaultFeatureNames : List String :=
  ["frequency", "monetary", "avg_ticket"]

/-- `ChurnPredictor.load_model()`: reads the artifact at `model_path` into
`self.model` (raising `FileNotFoundError` when absent) and initialises
`feature_names` with the fixed default when it is unset; no other field is
touched. -/
def loadChurnModel (st : ChurnState) (store : Store) : Except ChurnErr ChurnState :=
  match storeGet store st.model_path with
  | none => .error (.notFoundError st.model_path)
  | some m =>
    .ok { st with
            model := some m,
            feature_names :=
              match st.feature_names with
              | none => some defaultFeatureNames
              | some fs => some fs }

/-! ## Feature pipeline (`DataPreprocessor`) -/

/-- Cell value of a pandas column: number, string, or null (`NaN`/`NaT`). -/
inductive Val where
  | num : ℚ → Val
  | str : String → Val
  | null : Val
deriving Repr, DecidableEq

/-- One table row as an association list from column name to cell value. -/
abbrev Row : Type :=
  List (String × Val)

/-- Cell lookup `row[c]` (the dataframe operations below check column
presence through the header before relying on it). -/
def rowGet (r : Row) (c : String) : Val :=
  match r.find? (fun p => decide (p.1 = c)) with
  | some p => p.2
  | none => .null

/-- Cell assignment: replace the entry for `c`, appending it when absent. -/
def rowSet : Row → String → Val → Row
  | [], c, v => [(c, v)]
  | p :: ps, c, v => if p.1 = c then (c, v) :: ps else p :: rowSet ps c v

/-- Pandas `DataFrame`: a header (column list) and the rows. -/
structure DataFrame where
  cols : List String
  rows : List Row
deriving Repr, DecidableEq

/-- Column-presence test against the header. -/
def DataFrame.hasCol (df : DataFrame) (c : String) : Bool :=
  df.cols.contains c

/-- Header after a column assignment: unchanged when the column exists,
appended otherwise. -/
def addColList (cols : List String) (c : String) : List String :=
  if cols.contains c then cols else cols ++ [c]

/-- Column assignment `df[c] = f(row)` applied row-wise. -/
def setCol (df : DataFrame) (c : String) (f : Row → Val) : DataFrame :=
  ⟨addColList df.cols c, df.rows.map (fun r => rowSet r c (f r))⟩

/-- `df.rename(columns={old: nw})`, applied to header and row keys. -/
def renameCol (df : DataFrame) (old nw : String) : DataFrame :=
  ⟨df.cols.map (fun c => if c = old then nw else c),
   df.rows.map (fun r => r.map (fun p => if p.1 = old then (nw, p.2) else p))⟩

/-- `KeyError` carrying the missing column names it reports. -/
structure KeyErr where
  missing : List String
deriving Repr, DecidableEq

/-- `df[[c, ...]]` column selection; pandas raises a `KeyError` naming every
requested column that is absent. -/
def selectCols (df : DataFrame) (cs : List String) : Except KeyErr DataFrame :=
  let missing := cs.filter (fun c => !df.hasCol c)
  if missing.isEmpty then
    .ok ⟨cs, df.rows.map (fun r => cs.map (fun c => (c, rowGet r c)))⟩
  else .error ⟨missing⟩

/-- Null-extension row used for unmatched keys of a left join. -/
def nullRow (cols : List String) : Row :=
  cols.map (fun c => (c, Val.null))

/-- `left.merge(right, on=key, how='left')`: every left row is kept; it is
paired with each matching right row, or null-extended when no right row
matches. -/
def leftMerge (left right : DataFrame) (key : String) : DataFrame :=
  let rcols := right.cols.filter (fun c => !decide (c = key))
  ⟨left.cols ++ rcols,
   left.rows.flatMap (fun lr =>
     match right.rows.filter (fun rr => decide (rowGet rr key = rowGet lr key)) with
     | [] => [lr ++ nullRow rcols]
     | m :: ms => (m :: ms).map (fun rr => lr ++ rcols.map (fun c => (c, rowGet rr c))))⟩

/-- Subtraction on cells with null propagation (pandas `NaN` arithmetic). -/
def valSub : Val → Val → Val
  | .num a, .num b => .num (a - b)
  | _, _ => .null

/-- Multiplication on cells with null propagation. -/
def valMul : Val → Val → Val
  | .num a, .num b => .num (a * b)
  | _, _ => .null

/-- Date parsing and the `.dt.year/.month/.dayofweek` accessors are delegated
to pandas; their arithmetic enters the model as parameters (no claim
depends on the calendar values themselves). -/
structure Calendar where
  toDatetime : Val → Val
  yearOf : Val → Val
  monthOf : Val → Val
  dayOfWeekOf : Val → Val

/-- Date conversion and temporal-column derivation applied in place to
`self.transactions` by `preprocess_transactions`:
`date = to_datetime(date)`, then `year`, `month`, `day_of_week`. -/
def addTemporalCols (cal : Calendar) (t : DataFrame) : DataFrame :=
  let t1 := setCol t "date" (fun r => cal.toDatetime (rowGet r "date"))
  let t2 := setCol t1 "year" (fun r => cal.yearOf (rowGet r "date"))
  let t3 := setCol t2 "month" (fun r => cal.monthOf (rowGet r "date"))
  setCol t3 "day_of_week" (fun r => cal.dayOfWeekOf (rowGet r "date"))

/-- Effect of `addTemporalCols` on a single row (each derived cell reads the
already-converted `date` cell, as the sequential assignments do). -/
def rowAddTemporal (cal : Calendar) (r : Row) : Row :=
  let r1 := rowSet r "date" (cal.toDatetime (rowGet r "date"))
  let r2 := rowSet r1 "year" (cal.yearOf (rowGet r1 "date"))
  let r3 := rowSet r2 "month" (cal.monthOf (rowGet r2 "date"))
  rowSet r3 "day_of_week" (cal.dayOfWeekOf (rowGet r3 "date"))

/-- Margin per transaction: `(price - cost) * quantity`. -/
def marginFn (r : Row) : Val :=
  valMul (valSub (rowGet r "price") (rowGet r "cost")) (rowGet r "quantity")

/-- Product columns selected for the enrichment merge. -/
def requiredProductCols : List String :=
  ["product_id", "category", "price", "cost"]

/-- `DataPreprocessor.preprocess_transactions`, with the implicit pandas
`KeyError`s of each column access made explicit in source order: the `date`
conversion, the product-column selection, the merge key, and the `quantity`
access of the margin computation.  Returns the mutated `self.transactions`
together with `self.sales_processed`. -/
def preprocessTransactionsM (cal : Calendar) (transactions products : DataFrame) :
    Except KeyErr (DataFrame × DataFrame) :=
  if !transactions.hasCol "date" then .error ⟨["date"]⟩
  else
    let t4 := addTemporalCols cal transactions
    match selectCols products requiredProductCols with
    | .error e => .error e
    | .ok prodSel =>
      if !t4.hasCol "product_id" then .error ⟨["product_id"]⟩
      else
        let merged := leftMerge t4 prodSel "product_id"
        if !merged.hasCol "quantity" then .error ⟨["quantity"]⟩
        else .ok (t4, setCol merged "margin" marginFn)

/-- Maximum over the numeric cells of column `c` (`df[c].max()` skips nulls);
null when no numeric cell exists. -/
def maxNumVal (rows : List Row) (c : String) : Val :=
  match rows.filterMap (fun r =>
      match rowGet r c with
      | .num q => some q
      | _ => none) with
  | [] => .null
  | q :: qs => .num (qs.foldl max q)

/-- Sum over the numeric cells of column `c` (pandas `sum`, `skipna=True`). -/
def sumNumVal (rows : List Row) (c : String) : ℚ :=
  (rows.filterMap (fun r =>
      match rowGet r c with
      | .num q => some q
      | _ => none)).sum

/-- Distinct cell values in first-occurrence order.  Pandas `groupby` sorts
its keys; the claims proved below are insensitive to group order, so the
simpler first-occurrence order is used. -/
def distinctVals (l : List Val) : List Val :=
  l.foldl (fun acc v => if acc.contains v then acc else acc ++ [v]) []

/-- RFM row for the customer-id key `v`: recency against the dataset-wide
maximum date, frequency as the non-null `product_id` count (pandas `count`),
monetary as the `total_amount` sum. -/
def rfmRowOf (salesRows : List Row) (max_date : Val) (v : Val) : Row :=
  let grp := salesRows.filter (fun r => decide (rowGet r "customer_id" = v))
  [("customer_id", v),
   ("recency", valSub max_date (maxNumVal grp "date")),
   ("frequency",
    Val.num ((grp.filter (fun r => decide (rowGet r "product_id" ≠ Val.null))).length)),
   ("monetary", Val.num (sumNumVal grp "total_amount"))]

/-- `groupby('customer_id').agg({...})` followed by the column renaming: one
RFM row per distinct customer key. -/
def rfmTable (salesProcessed : DataFrame) (max_date : Val) : DataFrame :=
  ⟨["customer_id", "recency", "frequency", "monetary"],
   (distinctVals (salesProcessed.rows.map (fun r => rowGet r "customer_id"))).map
     (rfmRowOf salesProcessed.rows max_date)⟩

/-- `DataPreprocessor.create_customer_features`: RFM aggregation per customer
against the dataset-wide maximum date, then a left merge with the customer
metadata.  The implicit `KeyError`s of the `date` access, the `groupby`
key, the aggregation dictionary, and the merge are made explicit in source
order. -/
def createCustomerFeaturesM (salesProcessed customers : DataFrame) :
    Except KeyErr DataFrame :=
  if !salesProcessed.hasCol "date" then .error ⟨["date"]⟩
  else
    let max_date := maxNumVal salesProcessed.rows "date"
    if !salesProcessed.hasCol "customer_id" then .error ⟨["customer_id"]⟩
    else
      match ["date", "product_id", "total_amount"].filter
          (fun c => !salesProcessed.hasCol c) with
      | c :: cs => .error ⟨c :: cs⟩
      | [] =>
        if !customers.hasCol "customer_id" then .error ⟨["customer_id"]⟩
        else .ok (leftMerge (rfmTable salesProcessed max_date) customers "customer_id")

/-- Fields of a `DataPreprocessor` instance after a successful
`run_pipeline` (the `save_data` step writes the two output tables to disk;
file writing is an external side effect outside this model). -/
structure PPState where
  customers : DataFrame
  products : DataFrame
  transactions : DataFrame
  sales_processed : DataFrame
  customer_features : DataFrame

/-- `DataPreprocessor.run_pipeline` on the three loaded raw tables:
`load_data` renames the products `id` column in place, then the two
processing steps run in order. -/
def runPipeline (cal : Calendar) (rawCustomers rawProducts rawTransactions : DataFrame) :
    Except KeyErr PPState :=
  let products := renameCol rawProducts "id" "product_id"
  match preprocessTransactionsM cal rawTransactions products with
  | .error e => .error e
  | .ok (t4, sales) =>
    match createCustomerFeaturesM sales rawCustomers with
    | .error e => .error e
    | .ok feats => .ok ⟨rawCustomers, products, t4, sales, feats⟩

/-- Required input columns of the pipeline that are absent from the raw
tables (products checked after the `id` rename of `load_data`). -/
def missingRequired (rawCustomers rawProducts rawTransactions : DataFrame) : List String :=
  (["date", "product_id", "quantity", "customer_id", "total_amount"].filter
      (fun c => !rawTransactions.hasCol c)) ++
  (requiredProductCols.filter
      (fun c => !(renameCol rawProducts "id" "product_id").hasCol c)) ++
  (["customer_id"].filter (fun c => !rawCustomers.hasCol c))

/-! ## Concrete example inputs used to exercise the theorems -/

/-- Identity calendar instantiation (the calendar values are irrelevant to
every verified property). -/
def exCal : Calendar :=
  ⟨id, id, id, id⟩

/-- Example customers table. -/
def exCustomers : DataFrame :=
  ⟨["customer_id", "segment"],
   [[("customer_id", .num 1), ("segment", .str "A")]]⟩

/-- Example products table, with the raw `id` column that `load_data`
renames. -/
def exProducts : DataFrame :=
  ⟨["id", "category", "price", "cost"],
   [[("id", .num 1), ("category", .str "c"), ("price", .num 10), ("cost", .num 6)]]⟩

/-- Example transactions table with all required columns. -/
def exTransactions : DataFrame :=
  ⟨["date", "customer_id", "product_id", "quantity", "total_amount"],
   [[("date", .num 100), ("customer_id", .num 1), ("product_id", .num 1),
     ("quantity", .num 2), ("total_amount", .num 20)]]⟩

/-- Example transactions table with the required `quantity` column absent. -/
def exTransactionsNoQty : DataFrame :=
  ⟨["date", "customer_id", "product_id", "total_amount"],
   [[("date", .num 100), ("customer_id", .num 1), ("product_id", .num 1),
     ("total_amount", .num 20)]]⟩

/-- Example transactions table with the required `date` column absent. -/
def exTransactionsNoDate : DataFrame :=
  ⟨["customer_id", "product_id", "quantity", "total_amount"],
   [[("customer_id", .num 1), ("product_id", .num 1),
     ("quantity", .num 2), ("total_amount", .num 20)]]⟩

/-- Example products table with the required `category` column absent. -/
def exProductsNoCat : DataFrame :=
  ⟨["id", "price", "cost"],
   [[("id", .num 1), ("price", .num 10), ("cost", .num 6)]]⟩

/-- State produced by the pipeline on the example inputs. -/
def exPipelineOut : PPState :=
  match runPipeline exCal exCustomers exProducts exTransactions with
  | .ok st => st
  | .error _ => ⟨⟨[], []⟩, ⟨[], []⟩, ⟨[], []⟩, ⟨[], []⟩, ⟨[], []⟩⟩

/-- Example customer-feature rows (recency 100, 90 and 50 days). -/
def dfC1 : List CustRow :=
  [⟨1, 100, 2, 30⟩, ⟨2, 90, 1, 10⟩, ⟨3, 50, 4, 100⟩]

/-- Example scored rows for the risk filter. -/
def dataC4 : List ScoredRow :=
  [⟨1, 120, 2, 30, 15, mkRat 9 10⟩, ⟨2, 5, 1, 10, 10, mkRat 3 10⟩,
   ⟨3, 95, 3, 60, 20, mkRat 7 10⟩]

/-- Constant example classifier (stands in for a fitted XGBoost model). -/
def exXGBModel : XGBModel :=
  ⟨fun X => X.map (fun _ => 0), fun X => X.map (fun _ => 1/2)⟩

/-- Example splitter: everything into the training split. -/
def exSplit : Splitter :=
  fun X y => (X, [], y, [])

/-- Example fitting function returning the constant classifier. -/
def exFit : XGBFit :=
  fun _ _ => exXGBModel

/-- Example artifact store holding the constant classifier at the default
model path. -/
def exStore : Store :=
  [("models/churn_model.pkl", exXGBModel)]

/-- Example Prophet fit: constant forecasts. -/
def exProphetFit : ProphetFit :=
  ⟨fun _ => 500, fun _ => 450, fun _ => 550⟩

/-- Thirty-five days of constant sales. -/
def exSalesRows : List SalesCsvRow :=
  (List.range 35).map (fun i => ⟨some i, some 500, some 1⟩)

/-! ## Helper lemmas -/

lemma snd_eq_of_mem_zip_map {α β : Type _} (f : α → β) :
    ∀ (l : List α) (p : α × β), p ∈ l.zip (l.map f) → p.2 = f p.1 := by
  intro l
  induction l with
  | nil => intro p hp; cases hp
  | cons a t ih =>
    intro p hp
    rw [List.map_cons, List.zip_cons_cons] at hp
    rcases List.mem_cons.mp hp with h | h
    · subst h; rfl
    · exact ih p h

/-! ## C1: churn label derivation -/

/-- C1: for every customer feature row processed by
`ChurnPredictor._create_features`, the derived churn label is `1` exactly when
`recency > 90` and `0` otherwise; in particular `recency = 90` yields
label `0`. -/
theorem churn_label_rule (df : List CustRow) (r : CustRow) (lbl : ℕ)
    (h : (r, lbl) ∈ df.zip (createFeatures df).2.1) :
    ((createFeatures df).2.1).length = df.length ∧
    (lbl = 1 ↔ 90 < r.recency) ∧
    (lbl = 0 ↔ r.recency ≤ 90) ∧
    (r.recency = 90 → lbl = 0) := by
  have hy : (createFeatures df).2.1 = df.map (fun r => isChurnLabel r.recency) := rfl
  rw [hy] at h
  have hl := snd_eq_of_mem_zip_map (fun r : CustRow => isChurnLabel r.recency) df (r, lbl) h
  simp only at hl
  subst hl
  unfold isChurnLabel
  by_cases h90 : (90 : ℚ) < r.recency
  · refine ⟨by simp [hy], by simp [h90], ?_, ?_⟩
    · simp [h90, not_le.mpr h90]
    · intro he
      rw [he] at h90
      exact absurd h90 (lt_irrefl 90)
  · refine ⟨by simp [hy], by simp [h90], by simp [h90, le_of_not_lt h90], by simp [h90]⟩

/-- Witness for C1 at a concrete feature table: the row with recency 100 gets
label 1. -/
theorem churn_label_rule_witness :
    ((createFeatures dfC1).2.1).length = dfC1.length ∧
    ((1 : ℕ) = 1 ↔ (90 : ℚ) < (⟨1, 100, 2, 30⟩ : CustRow).recency) ∧
    ((1 : ℕ) = 0 ↔ (⟨1, 100, 2, 30⟩ : CustRow).recency ≤ 90) ∧
    ((⟨1, 100, 2, 30⟩ : CustRow).recency = 90 → (1 : ℕ) = 0) :=
  churn_label_rule dfC1 ⟨1, 100, 2, 30⟩ 1 (by decide)

/-! ## C2: avg_ticket guard -/

/-- C2: in both places where `avg_ticket` is derived — the feature-creation
step (`np.where`) and the serving page's recomputation
(`replace(0, NA)`/`fillna(0)`) — it equals `monetary / frequency` whenever
`frequency > 0` and is exactly `0` when `frequency = 0`; the feature matrix
built by `_create_features` carries exactly this guarded value. -/
theorem avg_ticket_guarded (m f : ℚ) (df : List CustRow) :
    (0 < f → avgTicketTrain m f = m / f ∧ avgTicketServing m f = m / f) ∧
    (f = 0 → avgTicketTrain m f = 0 ∧ avgTicketServing m f = 0) ∧
    (∀ r ∈ df,
      (⟨r.frequency, r.monetary, avgTicketTrain r.monetary r.frequency⟩ : FeatRow) ∈
        (createFeatures df).1) := by
  refine ⟨?_, ?_, ?_⟩
  · intro hf
    refine ⟨by simp [avgTicketTrain, hf], ?_⟩
    have hne : f ≠ 0 := ne_of_gt hf
    simp [avgTicketServing, hne]
  · intro hf
    subst hf
    exact ⟨by simp [avgTicketTrain], by simp [avgTicketServing]⟩
  · intro r hr
    simpa [createFeatures] using
      List.mem_map_of_mem
        (fun r : CustRow =>
          (⟨r.frequency, r.monetary, avgTicketTrain r.monetary r.frequency⟩ : FeatRow)) hr

/-- Witness for C2 at concrete values: positive frequency divides, zero
frequency yields 0, and a concrete row's feature entry. -/
theorem avg_ticket_guarded_witness :
    (avgTicketTrain 10 2 = 10 / 2 ∧ avgTicketServing 10 2 = 10 / 2) ∧
    (avgTicketTrain 7 0 = 0 ∧ avgTicketServing 7 0 = 0) ∧
    ((⟨2, 30, avgTicketTrain 30 2⟩ : FeatRow) ∈ (createFeatures [⟨1, 100, 2, 30⟩]).1) :=
  ⟨(avg_ticket_guarded 10 2 []).1 (by decide),
   (avg_ticket_guarded 7 0 []).2.1 rfl,
   (avg_ticket_guarded 0 0 [⟨1, 100, 2, 30⟩]).2.2 ⟨1, 100, 2, 30⟩ (by decide)⟩

/-! ## C4: serving-layer risk filter -/

/-- C4: the risk filter keeps exactly the rows with probability strictly
above the threshold, sorted descending by probability; with threshold 1 over
probabilities bounded by 1 the result is empty. -/
theorem risk_filter_spec (data : List ScoredRow) (T : ℚ) (hT0 : 0 ≤ T) (hT1 : T ≤ 1) :
    (∀ r ∈ riskFilter data T, T < r.churn_probability) ∧
    (riskFilter data T).Perm
      (data.filter (fun r => decide (T < r.churn_probability))) ∧
    List.Sorted probGE (riskFilter data T) ∧
    ((∀ r ∈ data, r.churn_probability ≤ 1) → T = 1 → riskFilter data T = []) := by
  have hperm : (riskFilter data T).Perm
      (data.filter (fun r => decide (T < r.churn_probability))) :=
    List.perm_insertionSort probGE _
  refine ⟨?_, hperm, List.sorted_insertionSort probGE _, ?_⟩
  · intro r hr
    have hmem : r ∈ data.filter (fun r => decide (T < r.churn_probability)) :=
      hperm.mem_iff.mp hr
    exact of_decide_eq_true (List.mem_filter.mp hmem).2
  · intro hbound hT
    subst hT
    have hnil : data.filter (fun r => decide ((1 : ℚ) < r.churn_probability)) = [] := by
      rw [List.filter_eq_nil_iff]
      intro r hr
      simpa using not_lt.mpr (hbound r hr)
    show List.insertionSort probGE _ = []
    rw [hnil]
    rfl

/-- Witness for C4 at a concrete table and threshold 1/2. -/
theorem risk_filter_spec_witness :
    (∀ r ∈ riskFilter dataC4 (mkRat 1 2), mkRat 1 2 < r.churn_probability) ∧
    (riskFilter dataC4 (mkRat 1 2)).Perm
      (dataC4.filter (fun r => decide (mkRat 1 2 < r.churn_probability))) ∧
    List.Sorted probGE (riskFilter dataC4 (mkRat 1 2)) ∧
    ((∀ r ∈ dataC4, r.churn_probability ≤ 1) → mkRat 1 2 = 1 →
      riskFilter dataC4 (mkRat 1 2) = []) :=
  risk_filter_spec dataC4 (mkRat 1 2) (by decide) (by decide)

/-! ## C7: forecaster training failure -/

/-- C7: `SalesTimeSeriesPredictor.train` drops null rows from the aggregated
daily series and fails with a `DataError` when fewer than 30 distinct days
remain, leaving the model unset (still untrained) while `df_train` holds the
cleaned series. -/
theorem forecast_train_insufficient_data (fit : ProphetFit) (dp mp : String)
    (rows : List SalesCsvRow)
    (h : (dropnaSeries (groupDaily rows)).length < 30) :
    ∃ st s, trainForecast fit (initSales dp mp) rows = (st, .error (.dataError s)) ∧
      st.model = none ∧
      st.df_train = some (dropnaSeries (groupDaily rows)) := by
  have hE : trainForecast fit (initSales dp mp) rows =
      ({ initSales dp mp with df_train := some (dropnaSeries (groupDaily rows)) },
       .error (.dataError "No hay suficientes datos para entrenar (min. 30 dias)")) := by
    simp only [trainForecast]
    rw [if_pos h]
  exact ⟨_, _, hE, rfl, rfl⟩

/-- Witness for C7: the empty transaction file aggregates to an empty series,
so training fails and the model stays unset. -/
theorem forecast_train_insufficient_data_witness :
    ∃ st s, trainForecast exProphetFit (initSales "d" "m") [] =
        (st, .error (.dataError s)) ∧
      st.model = none ∧
      st.df_train = some (dropnaSeries (groupDaily [])) :=
  forecast_train_insufficient_data exProphetFit "d" "m" [] (by decide)

/-! ## C10: load restores only the classifier -/

/-- C10: `load_model` restores only the fitted classifier and, when the
feature-name list is unset, the fixed default; every other field is unchanged,
so loading into a fresh instance leaves the metrics empty and the retained
test split unset while prediction succeeds. -/
theorem churn_load_frame (st : ChurnState) (store : Store) (m : XGBModel)
    (h : storeGet store st.model_path = some m) :
    ∃ stL, loadChurnModel st store = .ok stL ∧
      stL.model = some m ∧
      stL.feature_names =
        (match st.feature_names with
         | none => some defaultFeatureNames
         | some fs => some fs) ∧
      stL.data_path = st.data_path ∧
      stL.model_path = st.model_path ∧
      stL.random_state = st.random_state ∧
      stL.metrics = st.metrics ∧
      stL.X_test = st.X_test ∧
      stL.y_test = st.y_test ∧
      (∀ dp mp rs, st = initChurn dp mp rs →
        stL.metrics = none ∧ stL.X_test = none ∧ stL.y_test = none ∧
        stL.feature_names = some defaultFeatureNames) ∧
      (∀ X, predictChurn stL X = .ok (m.predictLabels X)) ∧
      (∀ X, predictChurnProbability stL X = .ok (m.predictProba X)) := by
  have hL : loadChurnModel st store = .ok
      { st with
          model := some m,
          feature_names :=
            match st.feature_names with
            | none => some defaultFeatureNames
            | some fs => some fs } := by
    unfold loadChurnModel
    rw [h]
  refine ⟨_, hL, rfl, rfl, rfl, rfl, rfl, rfl, rfl, rfl, ?_, fun X => rfl, fun X => rfl⟩
  intro dp mp rs hst
  subst hst
  exact ⟨rfl, rfl, rfl, rfl⟩

/-- Witness for C10: loading the constant classifier into a fresh predictor. -/
theorem churn_load_frame_witness :
    ∃ stL, loadChurnModel (initChurn "d" "models/churn_model.pkl" 42) exStore = .ok stL ∧
      stL.model = some exXGBModel ∧
      stL.feature_names =
        (match (initChurn "d" "models/churn_model.pkl" 42).feature_names with
         | none => some defaultFeatureNames
         | some fs => some fs) ∧
      stL.data_path = (initChurn "d" "models/churn_model.pkl" 42).data_path ∧
      stL.model_path = (initChurn "d" "models/churn_model.pkl" 42).model_path ∧
      stL.random_state = (initChurn "d" "models/churn_model.pkl" 42).random_state ∧
      stL.metrics = (initChurn "d" "models/churn_model.pkl" 42).metrics ∧
      stL.X_test = (initChurn "d" "models/churn_model.pkl" 42).X_test ∧
      stL.y_test = (initChurn "d" "models/churn_model.pkl" 42).y_test ∧
      (∀ dp mp rs, initChurn "d" "models/churn_model.pkl" 42 = initChurn dp mp rs →
        stL.metrics = none ∧ stL.X_test = none ∧ stL.y_test = none ∧
        stL.feature_names = some defaultFeatureNames) ∧
      (∀ X, predictChurn stL X = .ok (exXGBModel.predictLabels X)) ∧
      (∀ X, predictChurnProbability stL X = .ok (exXGBModel.predictProba X)) :=
  churn_load_frame (initChurn "d" "models/churn_model.pkl" 42) exStore exXGBModel rfl

/-! ## C5: persistence round trip -/

lemma storeGet_storeSet (s : Store) (k : String) (v : XGBModel) :
    storeGet (storeSet s k v) k = some v := by
  simp [storeGet, storeSet, List.find?]

/-- C5: persisting a trained churn model and reloading it from the artifact,
then predicting on the same feature rows, yields exactly the labels and
probabilities of the in-memory model right after training (the pickle
round-trip restores the fitted classifier value). -/
theorem churn_model_roundtrip (split : Splitter) (fit : XGBFit) (st0 : ChurnState)
    (store : Store) (df : List CustRow) (fresh : ChurnState)
    (hpath : fresh.model_path = st0.model_path) :
    ∃ stL, loadChurnModel fresh (trainChurn split fit st0 store df).2 = .ok stL ∧
      (∀ X, predictChurn stL X = predictChurn (trainChurn split fit st0 store df).1 X) ∧
      (∀ X, predictChurnProbability stL X =
        predictChurnProbability (trainChurn split fit st0 store df).1 X) := by
  have hsnd : (trainChurn split fit st0 store df).2 =
      storeSet store st0.model_path
        (fit (split (createFeatures df).1 (createFeatures df).2.1).1
             (split (createFeatures df).1 (createFeatures df).2.1).2.2.1) := rfl
  have hget : storeGet (trainChurn split fit st0 store df).2 fresh.model_path =
      some (fit (split (createFeatures df).1 (createFeatures df).2.1).1
                (split (createFeatures df).1 (createFeatures df).2.1).2.2.1) := by
    rw [hsnd, hpath]
    exact storeGet_storeSet store st0.model_path _
  refine ⟨{ fresh with
      model := some (fit (split (createFeatures df).1 (createFeatures df).2.1).1
                         (split (createFeatures df).1 (createFeatures df).2.1).2.2.1),
      feature_names :=
        match fresh.feature_names with
        | none => some defaultFeatureNames
        | some fs => some fs }, ?_, fun X => rfl, fun X => rfl⟩
  unfold loadChurnModel
  rw [hget]

/-- Witness for C5: train on the concrete feature table, reload into a fresh
predictor at the same artifact path, and predictions coincide. -/
theorem churn_model_roundtrip_witness :
    ∃ stL, loadChurnModel (initChurn "d2" "models/churn_model.pkl" 7)
        (trainChurn exSplit exFit (initChurn "d" "models/churn_model.pkl" 42) [] dfC1).2 =
        .ok stL ∧
      (∀ X, predictChurn stL X =
        predictChurn
          (trainChurn exSplit exFit (initChurn "d" "models/churn_model.pkl" 42) [] dfC1).1 X) ∧
      (∀ X, predictChurnProbability stL X =
        predictChurnProbability
          (trainChurn exSplit exFit (initChurn "d" "models/churn_model.pkl" 42) [] dfC1).1 X) :=
  churn_model_roundtrip exSplit exFit (initChurn "d" "models/churn_model.pkl" 42) [] dfC1
    (initChurn "d2" "models/churn_model.pkl" 7) rfl

/-! ## C3: fixed-horizon forecast shape -/

lemma le_foldl_max (l : List ℤ) (a : ℤ) : a ≤ l.foldl max a := by
  induction l generalizing a with
  | nil => exact le_refl a
  | cons b t ih => exact le_trans (le_max_left a b) (ih (max a b))

lemma mem_le_foldl_max (l : List ℤ) : ∀ a x : ℤ, x ∈ l → x ≤ l.foldl max a := by
  induction l with
  | nil => intro a x hx; cases hx
  | cons b t ih =>
    intro a x hx
    rcases List.mem_cons.mp hx with h | h
    · subst h
      exact le_trans (le_max_right a x) (le_foldl_max t (max a x))
    · exact ih (max a b) x h

lemma le_maxDateList (l : List ℤ) (x : ℤ) (hx : x ∈ l) : x ≤ maxDateList l :=
  mem_le_foldl_max l (l.headD 0) x hx

/-- Closed form of `predict_next_days` on a state whose Prophet model was fit
on exactly the dates of the retained training series: the history rows are
filtered out and the `n` future rows remain. -/
lemma predictNextDays_eq (st : SalesState) (m : ProphetModel) (L : List (ℤ × ℚ))
    (hm : st.model = some m) (hL : st.df_train = some L)
    (hh : m.historyDates = L.map Prod.fst) (n : ℕ) :
    predictNextDays st n = .ok ((futureDates (maxDsTrain L) n).map
      (fun d => (⟨d, m.yhat d, m.yhatLower d, m.yhatUpper d⟩ : ForecastRow))) := by
  unfold predictNextDays
  simp only [hm, hL]
  congr 1
  unfold prophetPredict makeFutureDataframe
  have hmax : maxDateList m.historyDates = maxDsTrain L := by rw [hh]; rfl
  rw [List.map_append, List.filter_append]
  have h1 : List.filter (fun r => decide (maxDsTrain L < r.ds))
      (m.historyDates.map (fun d =>
        (⟨d, m.yhat d, m.yhatLower d, m.yhatUpper d⟩ : ForecastRow))) = [] := by
    rw [List.filter_eq_nil_iff]
    intro r hr
    obtain ⟨d, hd, hdr⟩ := List.mem_map.mp hr
    subst hdr
    have hdle : d ≤ maxDsTrain L := hmax ▸ le_maxDateList m.historyDates d hd
    simpa using not_lt.mpr hdle
  have h2 : List.filter (fun r => decide (maxDsTrain L < r.ds))
      ((futureDates (maxDateList m.historyDates) n).map
        (fun d => (⟨d, m.yhat d, m.yhatLower d, m.yhatUpper d⟩ : ForecastRow))) =
      (futureDates (maxDateList m.historyDates) n).map
        (fun d => (⟨d, m.yhat d, m.yhatLower d, m.yhatUpper d⟩ : ForecastRow)) := by
    rw [List.filter_eq_self]
    intro r hr
    obtain ⟨d, hd, hdr⟩ := List.mem_map.mp hr
    obtain ⟨i, hi, hid⟩ := List.mem_map.mp hd
    subst hdr
    subst hid
    simp only [hmax, decide_eq_true_eq]
    omega
  rw [h1, h2, List.nil_append, hmax]

/-- C3: on a freshly trained forecaster (training series still in memory),
`predict_next_days(n)` returns exactly `n` rows, each dated strictly after
the last training date, the dates advancing by exactly one day, ordered
ascending. -/
theorem predict_next_days_spec (fit : ProphetFit) (dp mp : String)
    (rows : List SalesCsvRow) (st : SalesState)
    (h : trainForecast fit (initSales dp mp) rows = (st, .ok ()))
    (n : ℕ) (hn : 1 ≤ n) :
    ∃ tr out, st.df_train = some tr ∧
      predictNextDays st n = .ok out ∧
      out.length = n ∧
      (∀ i (hi : i < out.length), (out.get ⟨i, hi⟩).ds = maxDsTrain tr + 1 + i) ∧
      (∀ r ∈ out, maxDsTrain tr < r.ds) ∧
      List.Chain' (fun a b : ForecastRow => b.ds = a.ds + 1) out ∧
      List.Sorted (fun a b : ForecastRow => a.ds < b.ds) out := by
  simp only [trainForecast] at h
  by_cases hlen : (dropnaSeries (groupDaily rows)).length < 30
  · rw [if_pos hlen] at h
    exact absurd (congrArg Prod.snd h) (by simp)
  · rw [if_neg hlen] at h
    have hst := congrArg Prod.fst h
    simp only at hst
    subst hst
    refine ⟨dropnaSeries (groupDaily rows), _, rfl,
      predictNextDays_eq _ _ (dropnaSeries (groupDaily rows)) rfl rfl rfl n,
      by simp [futureDates], ?_, ?_, ?_, ?_⟩
    · intro i hi
      simp only [futureDates, List.get_eq_getElem, List.getElem_map, List.getElem_range]
    · intro r hr
      obtain ⟨d, hd, hdr⟩ := List.mem_map.mp hr
      obtain ⟨i, hi, hid⟩ := List.mem_map.mp hd
      subst hdr
      subst hid
      simp only
      omega
    · rw [List.chain'_iff_get]
      intro i hi
      simp only [futureDates, List.get_eq_getElem, List.getElem_map, List.getElem_range]
      push_cast
      ring
    · unfold List.Sorted
      rw [List.pairwise_iff_get]
      intro i j hij
      simp only [futureDates, List.get_eq_getElem, List.getElem_map, List.getElem_range]
      have hij2 : (i : ℕ) < (j : ℕ) := hij
      omega

/-- Witness for C3: 35 days of constant sales train successfully and the
seven-day forecast has the required shape. -/
theorem predict_next_days_spec_witness :
    ∃ tr out,
      (trainForecast exProphetFit (initSales "d" "m") exSalesRows).1.df_train = some tr ∧
      predictNextDays (trainForecast exProphetFit (initSales "d" "m") exSalesRows).1 7 =
        .ok out ∧
      out.length = 7 ∧
      (∀ i (hi : i < out.length), (out.get ⟨i, hi⟩).ds = maxDsTrain tr + 1 + i) ∧
      (∀ r ∈ out, maxDsTrain tr < r.ds) ∧
      List.Chain' (fun a b : ForecastRow => b.ds = a.ds + 1) out ∧
      List.Sorted (fun a b : ForecastRow => a.ds < b.ds) out :=
  predict_next_days_spec exProphetFit "d" "m" exSalesRows
    (trainForecast exProphetFit (initSales "d" "m") exSalesRows).1 rfl 7 (by decide)

/-! ## Pipeline helper lemmas -/

lemma hasCol_iff (df : DataFrame) (c : String) : df.hasCol c = true ↔ c ∈ df.cols := by
  simp [DataFrame.hasCol]

lemma mem_addColList (cols : List String) (c x : String) :
    x ∈ addColList cols c ↔ x ∈ cols ∨ x = c := by
  unfold addColList
  by_cases h : cols.contains c
  · rw [if_pos h]
    have hc : c ∈ cols := by simpa using h
    constructor
    · exact Or.inl
    · rintro (hx | hx)
      · exact hx
      · exact hx ▸ hc
  · rw [if_neg h]
    simp

lemma mem_cols_addTemporal (cal : Calendar) (t : DataFrame) (c : String) :
    c ∈ (addTemporalCols cal t).cols ↔
      c ∈ t.cols ∨ c = "date" ∨ c = "year" ∨ c = "month" ∨ c = "day_of_week" := by
  simp only [addTemporalCols, setCol, mem_addColList]
  tauto

lemma rowGet_cons (p : String × Val) (ps : Row) (c : String) :
    rowGet (p :: ps) c = if p.1 = c then p.2 else rowGet ps c := by
  by_cases hp : p.1 = c
  · simp [rowGet, List.find?, hp]
  · simp [rowGet, List.find?, hp]

lemma rowGet_cons_self (c : String) (v : Val) (t : Row) :
    rowGet ((c, v) :: t) c = v := by
  simp [rowGet_cons]

lemma rowGet_rowSet_ne (r : Row) (c c' : String) (v : Val) (h : c' ≠ c) :
    rowGet (rowSet r c v) c' = rowGet r c' := by
  induction r with
  | nil =>
    show rowGet [(c, v)] c' = rowGet [] c'
    simp [rowGet_cons, Ne.symm h, rowGet, List.find?]
  | cons p ps ih =>
    by_cases hp : p.1 = c
    · show rowGet (if p.1 = c then (c, v) :: ps else p :: rowSet ps c v) c' = _
      rw [if_pos hp]
      rw [rowGet_cons, rowGet_cons, if_neg (Ne.symm h), hp, if_neg (Ne.symm h)]
    · show rowGet (if p.1 = c then (c, v) :: ps else p :: rowSet ps c v) c' = _
      rw [if_neg hp]
      rw [rowGet_cons, rowGet_cons, ih]

lemma mem_keys_rowSet (r : Row) (c x : String) (v : Val) :
    x ∈ (rowSet r c v).map Prod.fst ↔ x ∈ r.map Prod.fst ∨ x = c := by
  induction r with
  | nil => simp [rowSet]
  | cons p ps ih =>
    by_cases hp : p.1 = c
    · show x ∈ ((if p.1 = c then (c, v) :: ps else p :: rowSet ps c v).map Prod.fst) ↔ _
      rw [if_pos hp]
      simp only [List.map_cons, List.mem_cons, hp]
      tauto
    · show x ∈ ((if p.1 = c then (c, v) :: ps else p :: rowSet ps c v).map Prod.fst) ↔ _
      rw [if_neg hp]
      simp only [List.map_cons, List.mem_cons, ih]
      tauto

lemma rowSet_append_of_not_mem (a b : Row) (c : String) (v : Val)
    (h : c ∉ a.map Prod.fst) :
    rowSet (a ++ b) c v = a ++ rowSet b c v := by
  induction a with
  | nil => simp
  | cons p ps ih =>
    simp only [List.map_cons, List.mem_cons, not_or] at h
    obtain ⟨h1, h2⟩ := h
    rw [List.cons_append]
    show (if p.1 = c then (c, v) :: (ps ++ b) else p :: rowSet (ps ++ b) c v) = _
    rw [if_neg (fun he => h1 he.symm), ih h2, List.cons_append]

lemma length_le_flatMap {α β : Type _} (l : List α) (f : α → List β)
    (h : ∀ a ∈ l, 1 ≤ (f a).length) : l.length ≤ (l.flatMap f).length := by
  induction l with
  | nil => simp
  | cons a t ih =>
    rw [List.flatMap_cons, List.length_append, List.length_cons]
    have h1 := h a (List.mem_cons_self a t)
    have h2 := ih (fun b hb => h b (List.mem_cons_of_mem a hb))
    omega

lemma length_le_leftMerge (left right : DataFrame) (key : String) :
    left.rows.length ≤ (leftMerge left right key).rows.length := by
  simp only [leftMerge]
  refine length_le_flatMap _ _ ?_
  intro lr hlr
  cases hf : right.rows.filter (fun rr => decide (rowGet rr key = rowGet lr key)) with
  | nil => simp
  | cons m ms => simp

lemma exists_append_mem_leftMerge (left right : DataFrame) (key : String) (lr : Row)
    (h : lr ∈ left.rows) :
    ∃ rest, lr ++ rest ∈ (leftMerge left right key).rows := by
  simp only [leftMerge]
  cases hf : right.rows.filter (fun rr => decide (rowGet rr key = rowGet lr key)) with
  | nil =>
    refine ⟨nullRow (right.cols.filter (fun c => !decide (c = key))), ?_⟩
    rw [List.mem_flatMap]
    refine ⟨lr, h, ?_⟩
    rw [hf]
    exact List.mem_singleton_self _
  | cons m ms =>
    refine ⟨(right.cols.filter (fun c => !decide (c = key))).map
      (fun c => (c, rowGet m c)), ?_⟩
    rw [List.mem_flatMap]
    refine ⟨lr, h, ?_⟩
    rw [hf]
    exact List.mem_map_of_mem _ (List.mem_cons_self m ms)

lemma mem_foldl_distinct (l : List Val) : ∀ (acc : List Val) (x : Val),
    x ∈ l.foldl (fun acc v => if acc.contains v then acc else acc ++ [v]) acc ↔
      x ∈ acc ∨ x ∈ l := by
  induction l with
  | nil => intro acc x; simp
  | cons a t ih =>
    intro acc x
    rw [List.foldl_cons]
    by_cases h : acc.contains a
    · rw [if_pos h, ih]
      constructor
      · rintro (hx | hx)
        · exact Or.inl hx
        · exact Or.inr (List.mem_cons_of_mem a hx)
      · rintro (hx | hx)
        · exact Or.inl hx
        · rcases List.mem_cons.mp hx with he | ht
          · subst he
            exact Or.inl (by simpa using h)
          · exact Or.inr ht
    · rw [if_neg h, ih]
      simp only [List.mem_append, List.mem_singleton, List.mem_cons]
      tauto

lemma mem_distinctVals (l : List Val) (x : Val) : x ∈ distinctVals l ↔ x ∈ l := by
  unfold distinctVals
  rw [mem_foldl_distinct]
  simp

lemma preprocessTransactionsM_ok (cal : Calendar) (t p t4 sales : DataFrame)
    (h : preprocessTransactionsM cal t p = .ok (t4, sales)) :
    t4 = addTemporalCols cal t ∧
    ∃ prodSel, selectCols p requiredProductCols = .ok prodSel ∧
      sales = setCol (leftMerge (addTemporalCols cal t) prodSel "product_id")
        "margin" marginFn := by
  simp only [preprocessTransactionsM] at h
  split at h
  · cases h
  · split at h
    · cases h
    · rename_i prodSel hsel
      split at h
      · cases h
      · split at h
        · cases h
        · have hp := Except.ok.inj h
          have h1 : t4 = addTemporalCols cal t := (congrArg Prod.fst hp).symm
          have h2 : sales = setCol (leftMerge (addTemporalCols cal t) prodSel "product_id")
              "margin" marginFn := (congrArg Prod.snd hp).symm
          exact ⟨h1, prodSel, hsel, h2⟩

lemma createCustomerFeaturesM_ok (sales customers feats : DataFrame)
    (h : createCustomerFeaturesM sales customers = .ok feats) :
    feats = leftMerge (rfmTable sales (maxNumVal sales.rows "date"))
      customers "customer_id" := by
  simp only [createCustomerFeaturesM] at h
  split at h
  · cases h
  · split at h
    · cases h
    · split at h
      · cases h
      · split at h
        · cases h
        · exact (Except.ok.inj h).symm

lemma runPipeline_ok_struct (cal : Calendar) (rc rp rt : DataFrame) (st : PPState)
    (h : runPipeline cal rc rp rt = .ok st) :
    st.customers = rc ∧
    st.products = renameCol rp "id" "product_id" ∧
    st.transactions = addTemporalCols cal rt ∧
    (∃ prodSel, selectCols (renameCol rp "id" "product_id") requiredProductCols =
        .ok prodSel ∧
      st.sales_processed =
        setCol (leftMerge (addTemporalCols cal rt) prodSel "product_id")
          "margin" marginFn) ∧
    st.customer_features =
      leftMerge (rfmTable st.sales_processed (maxNumVal st.sales_processed.rows "date"))
        rc "customer_id" := by
  simp only [runPipeline] at h
  split at h
  · cases h
  · rename_i t4 sales hpre
    split at h
    · cases h
    · rename_i feats hfeats
      have hst := Except.ok.inj h
      subst hst
      obtain ⟨ht4, prodSel, hsel, hsales⟩ := preprocessTransactionsM_ok cal rt _ t4 sales hpre
      have hcf := createCustomerFeaturesM_ok sales rc feats hfeats
      exact ⟨rfl, rfl, ht4, ⟨prodSel, hsel, hsales⟩, hcf⟩

/-! ## C9: the pipeline mutates its inputs -/

/-- Counterexample to C9: on a concrete well-formed input the pipeline
succeeds, yet the stored transactions table differs from the input (temporal
columns were added in place) and the stored products table differs from the
input (the `id` column was renamed in place). -/
theorem pipeline_mutates_inputs_counterexample :
    ∃ st, runPipeline exCal exCustomers exProducts exTransactions = .ok st ∧
      st.transactions ≠ exTransactions ∧ st.products ≠ exProducts := by
  refine ⟨exPipelineOut, rfl, ?_, ?_⟩ <;> decide

/-- C9 amended: on success the pipeline leaves the customers table unchanged,
while the products table is changed exactly by the in-place `id` →
`product_id` rename and the transactions table exactly by the in-place date
conversion and temporal-column additions. -/
theorem pipeline_mutation_frame (cal : Calendar) (rc rp rt : DataFrame) (st : PPState)
    (h : runPipeline cal rc rp rt = .ok st) :
    st.customers = rc ∧
    st.products = renameCol rp "id" "product_id" ∧
    st.transactions = addTemporalCols cal rt :=
  ⟨(runPipeline_ok_struct cal rc rp rt st h).1,
   (runPipeline_ok_struct cal rc rp rt st h).2.1,
   (runPipeline_ok_struct cal rc rp rt st h).2.2.1⟩

/-- Witness for the amended C9 at the concrete example input. -/
theorem pipeline_mutation_frame_witness :
    exPipelineOut.customers = exCustomers ∧
    exPipelineOut.products = renameCol exProducts "id" "product_id" ∧
    exPipelineOut.transactions = addTemporalCols exCal exTransactions :=
  pipeline_mutation_frame exCal exCustomers exProducts exTransactions exPipelineOut rfl

lemma rows_addTemporalCols (cal : Calendar) (t : DataFrame) :
    (addTemporalCols cal t).rows = t.rows.map (rowAddTemporal cal) := by
  simp only [addTemporalCols, setCol, List.map_map]
  rfl

lemma mem_keys_rowAddTemporal (cal : Calendar) (r : Row) (x : String) :
    x ∈ (rowAddTemporal cal r).map Prod.fst ↔
      x ∈ r.map Prod.fst ∨ x = "date" ∨ x = "year" ∨ x = "month" ∨
        x = "day_of_week" := by
  simp only [rowAddTemporal, mem_keys_rowSet]
  tauto

lemma rowGet_rfmRowOf (salesRows : List Row) (max_date : Val) (v : Val) (rest : Row) :
    rowGet (rfmRowOf salesRows max_date v ++ rest) "customer_id" = v := by
  simp only [rfmRowOf, List.cons_append]
  exact rowGet_cons_self _ _ _

lemma runPipeline_ok_preserves (cal : Calendar) (rc rp rt : DataFrame) (st : PPState)
    (h : runPipeline cal rc rp rt = .ok st)
    (hWF : ∀ r ∈ rt.rows, ∀ q ∈ r, q.1 ∈ rt.cols) (hm : "margin" ∉ rt.cols) :
    rt.rows.length ≤ st.sales_processed.rows.length ∧
    (∀ r ∈ rt.rows, ∃ rest, rowAddTemporal cal r ++ rest ∈ st.sales_processed.rows) ∧
    (∀ r ∈ st.sales_processed.rows, ∃ fr ∈ st.customer_features.rows,
      rowGet fr "customer_id" = rowGet r "customer_id") := by
  obtain ⟨hcus, hprod, htr, ⟨prodSel, hsel, hsales⟩, hcf⟩ :=
    runPipeline_ok_struct cal rc rp rt st h
  refine ⟨?_, ?_, ?_⟩
  · rw [hsales]
    calc rt.rows.length
        = (addTemporalCols cal rt).rows.length := by
          rw [rows_addTemporalCols, List.length_map]
      _ ≤ (leftMerge (addTemporalCols cal rt) prodSel "product_id").rows.length :=
          length_le_leftMerge _ _ _
      _ = (setCol (leftMerge (addTemporalCols cal rt) prodSel "product_id")
            "margin" marginFn).rows.length := by
          simp [setCol]
  · intro r hr
    have hlr : rowAddTemporal cal r ∈ (addTemporalCols cal rt).rows := by
      rw [rows_addTemporalCols]
      exact List.mem_map_of_mem _ hr
    obtain ⟨rest0, hmem⟩ :=
      exists_append_mem_leftMerge (addTemporalCols cal rt) prodSel "product_id" _ hlr
    have hkeys : "margin" ∉ (rowAddTemporal cal r).map Prod.fst := by
      rw [mem_keys_rowAddTemporal]
      rintro (hx | hx | hx | hx | hx)
      · obtain ⟨q, hq, hq1⟩ := List.mem_map.mp hx
        exact hm (hq1 ▸ hWF r hr q hq)
      · exact absurd hx (by decide)
      · exact absurd hx (by decide)
      · exact absurd hx (by decide)
      · exact absurd hx (by decide)
    have himg : rowSet (rowAddTemporal cal r ++ rest0) "margin"
        (marginFn (rowAddTemporal cal r ++ rest0)) ∈ st.sales_processed.rows := by
      rw [hsales]
      simp only [setCol]
      exact List.mem_map_of_mem _ hmem
    rw [rowSet_append_of_not_mem _ _ _ _ hkeys] at himg
    exact ⟨_, himg⟩
  · intro r hr
    have hv : rowGet r "customer_id" ∈
        st.sales_processed.rows.map (fun r => rowGet r "customer_id") :=
      List.mem_map_of_mem _ hr
    have hvd : rowGet r "customer_id" ∈
        distinctVals (st.sales_processed.rows.map (fun r => rowGet r "customer_id")) :=
      (mem_distinctVals _ _).mpr hv
    have hrfm : rfmRowOf st.sales_processed.rows
        (maxNumVal st.sales_processed.rows "date") (rowGet r "customer_id") ∈
        (rfmTable st.sales_processed (maxNumVal st.sales_processed.rows "date")).rows := by
      simp only [rfmTable]
      exact List.mem_map_of_mem _ hvd
    obtain ⟨rest, hmem⟩ := exists_append_mem_leftMerge
      (rfmTable st.sales_processed (maxNumVal st.sales_processed.rows "date"))
      rc "customer_id" _ hrfm
    refine ⟨rfmRowOf st.sales_processed.rows (maxNumVal st.sales_processed.rows "date")
        (rowGet r "customer_id") ++ rest, ?_, rowGet_rfmRowOf _ _ _ _⟩
    rw [hcf]
    exact hmem

lemma hasCol_false_iff (df : DataFrame) (c : String) :
    df.hasCol c = false ↔ c ∉ df.cols := by
  rw [← hasCol_iff]
  cases df.hasCol c <;> simp

lemma filter_requiredProductCols :
    requiredProductCols.filter (fun c => !decide (c = "product_id")) =
      ["category", "price", "cost"] := by decide

lemma selectCols_ok_cols (df : DataFrame) (cs : List String) (out : DataFrame)
    (h : selectCols df cs = .ok out) : out.cols = cs := by
  simp only [selectCols] at h
  split at h
  · obtain rfl := Except.ok.inj h
    rfl
  · cases h

lemma mem_cols_merged (cal : Calendar) (t prodSel : DataFrame)
    (hps : prodSel.cols = requiredProductCols) (c : String) :
    c ∈ (leftMerge (addTemporalCols cal t) prodSel "product_id").cols ↔
      c ∈ t.cols ∨ c = "date" ∨ c = "year" ∨ c = "month" ∨ c = "day_of_week" ∨
      c = "category" ∨ c = "price" ∨ c = "cost" := by
  simp only [leftMerge, hps, filter_requiredProductCols, List.mem_append,
    mem_cols_addTemporal, List.mem_cons, List.mem_singleton, List.not_mem_nil, or_false]
  tauto

lemma mem_cols_sales (cal : Calendar) (t prodSel : DataFrame)
    (hps : prodSel.cols = requiredProductCols) (c : String) :
    c ∈ (setCol (leftMerge (addTemporalCols cal t) prodSel "product_id")
        "margin" marginFn).cols ↔
      c ∈ t.cols ∨ c = "date" ∨ c = "year" ∨ c = "month" ∨ c = "day_of_week" ∨
      c = "category" ∨ c = "price" ∨ c = "cost" ∨ c = "margin" := by
  simp only [setCol, mem_addColList, mem_cols_merged cal t prodSel hps]
  tauto

lemma runPipeline_error_side (cal : Calendar) (rc rp rt : DataFrame)
    (hne : missingRequired rc rp rt ≠ []) :
    ∃ e, runPipeline cal rc rp rt = .error e ∧ e.missing ≠ [] ∧
      e.missing ⊆ missingRequired rc rp rt := by
  cases h1 : rt.hasCol "date" with
  | false =>
    refine ⟨⟨["date"]⟩, ?_, by simp, ?_⟩
    · simp [runPipeline, preprocessTransactionsM, h1]
    · intro x hx
      rw [List.mem_singleton] at hx
      subst hx
      simp [missingRequired, List.mem_append, List.mem_filter, h1]
  | true =>
    cases hm4 : requiredProductCols.filter
        (fun c => !(renameCol rp "id" "product_id").hasCol c) with
    | cons c cs =>
      refine ⟨⟨c :: cs⟩, ?_, by simp, ?_⟩
      · have hsel : selectCols (renameCol rp "id" "product_id") requiredProductCols =
            .error ⟨c :: cs⟩ := by
          simp [selectCols, hm4]
        simp [runPipeline, preprocessTransactionsM, h1, hsel]
      · intro x hx
        simp only [missingRequired, List.mem_append]
        exact Or.inl (Or.inr (hm4 ▸ hx))
    | nil =>
      obtain ⟨prodSel, hsel⟩ : ∃ ps,
          selectCols (renameCol rp "id" "product_id") requiredProductCols = .ok ps :=
        ⟨⟨requiredProductCols, (renameCol rp "id" "product_id").rows.map
            (fun r => requiredProductCols.map (fun c => (c, rowGet r c)))⟩,
          by simp [selectCols, hm4]⟩
      have hpscols : prodSel.cols = requiredProductCols :=
        selectCols_ok_cols _ _ _ hsel
      cases h2 : rt.hasCol "product_id" with
      | false =>
        have ht4 : (addTemporalCols cal rt).hasCol "product_id" = false := by
          rw [hasCol_false_iff, mem_cols_addTemporal]
          rw [hasCol_false_iff] at h2
          rintro (hx | hx | hx | hx | hx)
          · exact h2 hx
          all_goals exact absurd hx (by decide)
        refine ⟨⟨["product_id"]⟩, ?_, by simp, ?_⟩
        · simp [runPipeline, preprocessTransactionsM, h1, hsel, ht4]
        · intro x hx
          rw [List.mem_singleton] at hx
          subst hx
          simp [missingRequired, List.mem_append, List.mem_filter, h2]
      | true =>
        have ht4 : (addTemporalCols cal rt).hasCol "product_id" = true := by
          rw [hasCol_iff, mem_cols_addTemporal]
          exact Or.inl ((hasCol_iff rt "product_id").mp h2)
        cases h3 : rt.hasCol "quantity" with
        | false =>
          have hmq : (leftMerge (addTemporalCols cal rt) prodSel
              "product_id").hasCol "quantity" = false := by
            rw [hasCol_false_iff, mem_cols_merged cal rt prodSel hpscols]
            rw [hasCol_false_iff] at h3
            rintro (hx | hx | hx | hx | hx | hx | hx | hx)
            · exact h3 hx
            all_goals exact absurd hx (by decide)
          refine ⟨⟨["quantity"]⟩, ?_, by simp, ?_⟩
          · simp [runPipeline, preprocessTransactionsM, h1, hsel, ht4, hmq]
          · intro x hx
            rw [List.mem_singleton] at hx
            subst hx
            simp [missingRequired, List.mem_append, List.mem_filter, h3]
        | true =>
          have hmq : (leftMerge (addTemporalCols cal rt) prodSel
              "product_id").hasCol "quantity" = true := by
            rw [hasCol_iff, mem_cols_merged cal rt prodSel hpscols]
            exact Or.inl ((hasCol_iff rt "quantity").mp h3)
          have hpre : preprocessTransactionsM cal rt (renameCol rp "id" "product_id") =
              .ok (addTemporalCols cal rt,
                setCol (leftMerge (addTemporalCols cal rt) prodSel "product_id")
                  "margin" marginFn) := by
            simp [preprocessTransactionsM, h1, hsel, ht4, hmq]
          have hsd : (setCol (leftMerge (addTemporalCols cal rt) prodSel "product_id")
              "margin" marginFn).hasCol "date" = true := by
            rw [hasCol_iff, mem_cols_sales cal rt prodSel hpscols]
            tauto
          have hsp : (setCol (leftMerge (addTemporalCols cal rt) prodSel "product_id")
              "margin" marginFn).hasCol "product_id" = true := by
            rw [hasCol_iff, mem_cols_sales cal rt prodSel hpscols]
            exact Or.inl ((hasCol_iff rt "product_id").mp h2)
          cases h4 : rt.hasCol "customer_id" with
          | false =>
            have hscid : (setCol (leftMerge (addTemporalCols cal rt) prodSel "product_id")
                "margin" marginFn).hasCol "customer_id" = false := by
              rw [hasCol_false_iff, mem_cols_sales cal rt prodSel hpscols]
              rw [hasCol_false_iff] at h4
              rintro (hx | hx | hx | hx | hx | hx | hx | hx | hx)
              · exact h4 hx
              all_goals exact absurd hx (by decide)
            refine ⟨⟨["customer_id"]⟩, ?_, by simp, ?_⟩
            · simp [runPipeline, hpre, createCustomerFeaturesM, hsd, hscid]
            · intro x hx
              rw [List.mem_singleton] at hx
              subst hx
              simp [missingRequired, List.mem_append, List.mem_filter, h4]
          | true =>
            have hscid : (setCol (leftMerge (addTemporalCols cal rt) prodSel "product_id")
                "margin" marginFn).hasCol "customer_id" = true := by
              rw [hasCol_iff, mem_cols_sales cal rt prodSel hpscols]
              exact Or.inl ((hasCol_iff rt "customer_id").mp h4)
            cases h5 : rt.hasCol "total_amount" with
            | false =>
              have hsta : (setCol (leftMerge (addTemporalCols cal rt) prodSel "product_id")
                  "margin" marginFn).hasCol "total_amount" = false := by
                rw [hasCol_false_iff, mem_cols_sales cal rt prodSel hpscols]
                rw [hasCol_false_iff] at h5
                rintro (hx | hx | hx | hx | hx | hx | hx | hx | hx)
                · exact h5 hx
                all_goals exact absurd hx (by decide)
              have hagg : ["date", "product_id", "total_amount"].filter
                  (fun c => !(setCol (leftMerge (addTemporalCols cal rt) prodSel
                    "product_id") "margin" marginFn).hasCol c) = ["total_amount"] := by
                simp [List.filter, hsd, hsp, hsta]
              refine ⟨⟨["total_amount"]⟩, ?_, by simp, ?_⟩
              · simp [runPipeline, hpre, createCustomerFeaturesM, hsd, hscid, hagg]
              · intro x hx
                rw [List.mem_singleton] at hx
                subst hx
                simp [missingRequired, List.mem_append, List.mem_filter, h5]
            | true =>
              have hsta : (setCol (leftMerge (addTemporalCols cal rt) prodSel "product_id")
                  "margin" marginFn).hasCol "total_amount" = true := by
                rw [hasCol_iff, mem_cols_sales cal rt prodSel hpscols]
                exact Or.inl ((hasCol_iff rt "total_amount").mp h5)
              have hagg : ["date", "product_id", "total_amount"].filter
                  (fun c => !(setCol (leftMerge (addTemporalCols cal rt) prodSel
                    "product_id") "margin" marginFn).hasCol c) = [] := by
                simp [List.filter, hsd, hsp, hsta]
              cases h6 : rc.hasCol "customer_id" with
              | false =>
                refine ⟨⟨["customer_id"]⟩, ?_, by simp, ?_⟩
                · simp [runPipeline, hpre, createCustomerFeaturesM, hsd, hscid, hagg, h6]
                · intro x hx
                  rw [List.mem_singleton] at hx
                  subst hx
                  simp [missingRequired, List.mem_append, List.mem_filter, h6]
              | true =>
                exfalso
                apply hne
                unfold missingRequired
                rw [hm4]
                simp [List.filter, h1, h2, h3, h4, h5, h6]

/-! ## C6: fail-fast on missing columns, no silent row drops -/

/-- Counterexample to C6 as stated: with `date` missing from the
transactions table and `category` missing from the products table, the
pipeline fails at the first column access and its error names only `date` —
it does not name all the missing required columns. -/
theorem pipeline_error_names_counterexample :
    ∃ e, runPipeline exCal exCustomers exProductsNoCat exTransactionsNoDate =
        .error e ∧
      "category" ∈ missingRequired exCustomers exProductsNoCat exTransactionsNoDate ∧
      "category" ∉ e.missing := by
  exact ⟨⟨["date"]⟩, rfl, by decide, by decide⟩

/-- C6: when any required input column is absent from the customers,
products, or transactions tables, the pipeline fails fast with a `KeyError`
naming only missing required columns (and at least one); on success it never
silently drops rows — every transaction row survives, extended, into the
enriched output, and every transacting customer appears in the feature
table. -/
theorem pipeline_missing_columns_fail_fast (cal : Calendar) (rc rp rt : DataFrame) :
    (missingRequired rc rp rt ≠ [] →
      ∃ e, runPipeline cal rc rp rt = .error e ∧ e.missing ≠ [] ∧
        e.missing ⊆ missingRequired rc rp rt) ∧
    (∀ st, runPipeline cal rc rp rt = .ok st →
      (∀ r ∈ rt.rows, ∀ q ∈ r, q.1 ∈ rt.cols) → "margin" ∉ rt.cols →
      rt.rows.length ≤ st.sales_processed.rows.length ∧
      (∀ r ∈ rt.rows, ∃ rest, rowAddTemporal cal r ++ rest ∈ st.sales_processed.rows) ∧
      (∀ r ∈ st.sales_processed.rows, ∃ fr ∈ st.customer_features.rows,
        rowGet fr "customer_id" = rowGet r "customer_id")) :=
  ⟨runPipeline_error_side cal rc rp rt,
   fun st h hWF hm => runPipeline_ok_preserves cal rc rp rt st h hWF hm⟩

/-- Witness for C6: dropping `quantity` from the example transactions makes
the pipeline fail naming a missing required column, while the complete
example input runs with every row preserved. -/
theorem pipeline_missing_columns_fail_fast_witness :
    (∃ e, runPipeline exCal exCustomers exProducts exTransactionsNoQty = .error e ∧
      e.missing ≠ [] ∧
      e.missing ⊆ missingRequired exCustomers exProducts exTransactionsNoQty) ∧
    (exTransactions.rows.length ≤ exPipelineOut.sales_processed.rows.length ∧
     (∀ r ∈ exTransactions.rows, ∃ rest,
        rowAddTemporal exCal r ++ rest ∈ exPipelineOut.sales_processed.rows) ∧
     (∀ r ∈ exPipelineOut.sales_processed.rows,
        ∃ fr ∈ exPipelineOut.customer_features.rows,
          rowGet fr "customer_id" = rowGet r "customer_id")) :=
  ⟨(pipeline_missing_columns_fail_fast exCal exCustomers exProducts
      exTransactionsNoQty).1 (by decide),
   (pipeline_missing_columns_fail_fast exCal exCustomers exProducts exTransactions).2
      exPipelineOut rfl (by decide) (by decide)⟩

end RetailIA
